import Mathlib

set_option maxHeartbeats 1000000

/-!
A shallow embedding of the redust server sources (`src/resp.rs`,
`src/db.rs`, `src/commands.rs`): the RESP codec, the keyspace and
channel registry, and the command executor, together with proofs
about them.

Bytes are modelled as `Nat` (byte values, `< 256` in practice) and byte
buffers as `List Nat`.  The mutable `Buf` cursor of the Rust parser is
modelled by returning the remaining buffer alongside every result, so
that exactly the bytes each Rust operation consumes are dropped from
the front of the list, including on the error paths.
-/

namespace Redust

/-- Outcomes of the RESP decoder: `ParseError` in resp.rs. -/
inductive ParseError where
  | Incomplete
  | InvalidFormat
deriving DecidableEq, Repr

/-- A continuation byte of a UTF-8 sequence (`0x80..=0xBF`). -/
def isCont (b : Nat) : Bool := 128 ≤ b && b ≤ 191

/-- Classification of a UTF-8 lead byte (RFC 3629, as enforced by
Rust's `std::str::from_utf8`): `none` for an impossible lead byte,
otherwise the number of continuation bytes together with the allowed
range of the first of them (shortest forms only, no surrogates, code
points at most `U+10FFFF`). -/
def utf8Lead (b : Nat) : Option (Nat × Nat × Nat) :=
  if b < 128 then some (0, 128, 191)
  else if b < 194 then none
  else if b < 224 then some (1, 128, 191)
  else if b = 224 then some (2, 160, 191)
  else if b < 237 then some (2, 128, 191)
  else if b = 237 then some (2, 128, 159)
  else if b < 240 then some (2, 128, 191)
  else if b = 240 then some (3, 144, 191)
  else if b < 244 then some (3, 128, 191)
  else if b = 244 then some (3, 128, 143)
  else none

/-- Validity of a byte sequence as UTF-8, as checked by Rust's
`std::str::from_utf8`. -/
def utf8Valid : List Nat → Bool
  | [] => true
  | b :: rest =>
    match utf8Lead b with
    | none => false
    | some (0, _, _) => utf8Valid rest
    | some (1, lo, hi) =>
      match rest with
      | c1 :: rest2 => (lo ≤ c1 && c1 ≤ hi) && utf8Valid rest2
      | [] => false
    | some (2, lo, hi) =>
      match rest with
      | c1 :: c2 :: rest2 => (lo ≤ c1 && c1 ≤ hi) && isCont c2 && utf8Valid rest2
      | _ => false
    | some (_ + 3, lo, hi) =>
      match rest with
      | c1 :: c2 :: c3 :: rest2 =>
        (lo ≤ c1 && c1 ≤ hi) && isCont c2 && isCont c3 && utf8Valid rest2
      | _ => false

/-- Loop body of `read_line` in resp.rs.  `acc` holds the bytes read so
far, in reverse.  On `\r` the next byte is consumed and must be `\n`
(`InvalidFormat` otherwise, and also when the buffer ends right after
the `\r`); after the terminator the accumulated line must be valid
UTF-8 (`String::from_utf8`).  The second component is the buffer state
left behind by the Rust code on each path. -/
def readLineGo : List Nat → List Nat → Except ParseError (List Nat) × List Nat
  | [], _ => (Except.error ParseError.Incomplete, [])
  | b :: rest, acc =>
    if b = 13 then
      match rest with
      | [] => (Except.error ParseError.InvalidFormat, [])
      | c :: rest2 =>
        if c = 10 then
          if utf8Valid acc.reverse then (Except.ok acc.reverse, rest2)
          else (Except.error ParseError.InvalidFormat, rest2)
        else (Except.error ParseError.InvalidFormat, rest2)
    else readLineGo rest (b :: acc)

/-- `read_line` of resp.rs: reads bytes up to the first `\r\n` and
returns them (the UTF-8 bytes of the returned `String`). -/
def read_line (buf : List Nat) : Except ParseError (List Nat) × List Nat :=
  readLineGo buf []

/-- Decimal digits of `n`, most significant first, as ASCII bytes
(accumulator form). -/
def natToDecAux (n : Nat) (acc : List Nat) : List Nat :=
  if h : n = 0 then acc
  else natToDecAux (n / 10) ((n % 10 + 48) :: acc)
termination_by n
decreasing_by exact Nat.div_lt_self (Nat.pos_of_ne_zero h) (by omega)

/-- ASCII decimal representation of a natural number, as produced by
Rust integer formatting. -/
def natToDec (n : Nat) : List Nat :=
  if n = 0 then [48] else natToDecAux n []

/-- ASCII decimal representation of an `i64` value. -/
def intToDec (n : Int) : List Nat :=
  if n < 0 then 45 :: natToDec n.natAbs else natToDec n.toNat

/-- Digit-folding loop shared by the integer parsers: consumes ASCII
digits, accumulating the value; any non-digit byte fails. -/
def parseDigitsGo : List Nat → Nat → Option Nat
  | [], acc => some acc
  | b :: rest, acc =>
    if 48 ≤ b && b ≤ 57 then parseDigitsGo rest (acc * 10 + (b - 48)) else none

/-- All-digit parse of a nonempty byte string. -/
def parseDigits (s : List Nat) : Option Nat :=
  if s.isEmpty then none else parseDigitsGo s 0

/-- Rust `str::parse::<usize>` (64-bit): an optional leading `+`, then
one or more decimal digits; fails on any other byte or on overflow
past `2^64 - 1`. -/
def parseUsize (s : List Nat) : Option Nat :=
  let s2 := if s.head? = some 43 then s.tail else s
  match parseDigits s2 with
  | some n => if n < 2 ^ 64 then some n else none
  | none => none

/-- Rust `str::parse::<i64>`: an optional leading `+` or `-`, then one
or more decimal digits; fails on any other byte or when the value
leaves the `i64` range. -/
def parseI64 (s : List Nat) : Option Int :=
  if s.head? = some 43 then
    match parseDigits s.tail with
    | some n => if n < 2 ^ 63 then some (n : Int) else none
    | none => none
  else if s.head? = some 45 then
    match parseDigits s.tail with
    | some n => if n ≤ 2 ^ 63 then some (-(n : Int)) else none
    | none => none
  else
    match parseDigits s with
    | some n => if n < 2 ^ 63 then some (n : Int) else none
    | none => none

/-- RESP values: `Value` in resp.rs.  The texts of `simpleString` and
`error` are the UTF-8 bytes of the Rust `String`; `bulkString` holds
raw bytes. -/
inductive Value where
  | simpleString (s : List Nat)
  | error (s : List Nat)
  | integer (n : Int)
  | bulkString (b : List Nat)
  | array (vs : List Value)
  | null
deriving Repr

/-- The body of `parse_simple_string` in resp.rs. -/
def parse_simple_string (buf : List Nat) : Except ParseError Value × List Nat :=
  match read_line buf with
  | (Except.ok line, rest) => (Except.ok (Value.simpleString line), rest)
  | (Except.error e, rest) => (Except.error e, rest)

/-- The body of `parse_error` in resp.rs. -/
def parse_error (buf : List Nat) : Except ParseError Value × List Nat :=
  match read_line buf with
  | (Except.ok line, rest) => (Except.ok (Value.error line), rest)
  | (Except.error e, rest) => (Except.error e, rest)

/-- The body of `parse_integer` in resp.rs: a line parsed with
`str::parse::<i64>`, failure mapped to `InvalidFormat`. -/
def parse_integer (buf : List Nat) : Except ParseError Value × List Nat :=
  match read_line buf with
  | (Except.ok line, rest) =>
    match parseI64 line with
    | some n => (Except.ok (Value.integer n), rest)
    | none => (Except.error ParseError.InvalidFormat, rest)
  | (Except.error e, rest) => (Except.error e, rest)

/-- The body of `parse_bulk_string` in resp.rs.  Note that after the
`len` payload bytes the code merely does `buf.advance(2)` — it drops
two bytes without checking that they are `\r\n`. -/
def parse_bulk_string (buf : List Nat) : Except ParseError Value × List Nat :=
  match read_line buf with
  | (Except.ok line, rest) =>
    if line = [45, 49] then (Except.ok Value.null, rest)
    else
      match parseUsize line with
      | some len =>
        if rest.length < len + 2 then (Except.error ParseError.Incomplete, rest)
        else (Except.ok (Value.bulkString (rest.take len)), (rest.drop len).drop 2)
      | none => (Except.error ParseError.InvalidFormat, rest)
  | (Except.error e, rest) => (Except.error e, rest)

mutual
/-- `parse_value` of resp.rs, with a fuel argument making the
nested-array recursion structural.  Fuel only decreases on the
recursive calls; `parse_value` below supplies `buf.length + 1`, which
is more than any parse of `buf` can use, so the fuel-exhausted branch
is unreachable from `parse_value`. -/
def parseValueF : Nat → List Nat → Except ParseError Value × List Nat
  | 0, buf => (Except.error ParseError.Incomplete, buf)
  | fuel + 1, buf =>
    match buf with
    | [] => (Except.error ParseError.Incomplete, [])
    | b :: rest =>
      if b = 43 then parse_simple_string rest
      else if b = 45 then parse_error rest
      else if b = 58 then parse_integer rest
      else if b = 36 then parse_bulk_string rest
      else if b = 42 then
        match read_line rest with
        | (Except.ok line, rest2) =>
          if line = [45, 49] then (Except.ok Value.null, rest2)
          else
            match parseUsize line with
            | some len =>
              match parseValuesF fuel len rest2 with
              | (Except.ok vs, buf3) => (Except.ok (Value.array vs), buf3)
              | (Except.error e, buf3) => (Except.error e, buf3)
            | none => (Except.error ParseError.InvalidFormat, rest2)
        | (Except.error e, rest2) => (Except.error e, rest2)
      else (Except.error ParseError.InvalidFormat, rest)

/-- The element loop of `parse_array` in resp.rs: `len` successive
`parse_value` calls, aborting on the first error with the buffer
wherever that call left it. -/
def parseValuesF : Nat → Nat → List Nat → Except ParseError (List Value) × List Nat
  | _, 0, buf => (Except.ok [], buf)
  | 0, _ + 1, buf => (Except.error ParseError.Incomplete, buf)
  | fuel + 1, k + 1, buf =>
    match parseValueF fuel buf with
    | (Except.ok v, buf2) =>
      match parseValuesF fuel k buf2 with
      | (Except.ok vs, buf3) => (Except.ok (v :: vs), buf3)
      | (Except.error e, buf3) => (Except.error e, buf3)
    | (Except.error e, buf2) => (Except.error e, buf2)
end

/-- `parse_value` of resp.rs.  The fuel `buf.length + 1` bounds the
number of nested `parse_value` activations, each of which consumes at
least one buffer byte before recursing. -/
def parse_value (buf : List Nat) : Except ParseError Value × List Nat :=
  parseValueF (buf.length + 1) buf

mutual
/-- Modelled from the spec: the RESP encoder (`serialize_value`, called
from main.rs but absent from the sources).  Canonical forms per the
spec's wire grammar: `+text\r\n`, `-text\r\n`, `:n\r\n`,
`$len\r\npayload\r\n`, `*count\r\n` followed by the encoded elements,
and `$-1\r\n` for `Null`. -/
def encodeValue : Value → List Nat
  | Value.simpleString s => 43 :: (s ++ [13, 10])
  | Value.error s => 45 :: (s ++ [13, 10])
  | Value.integer n => 58 :: (intToDec n ++ [13, 10])
  | Value.bulkString b => 36 :: (natToDec b.length ++ [13, 10] ++ b ++ [13, 10])
  | Value.array vs => 42 :: (natToDec vs.length ++ [13, 10] ++ encodeList vs)
  | Value.null => [36, 45, 49, 13, 10]

/-- Concatenated encodings of a list of values (array elements). -/
def encodeList : List Value → List Nat
  | [] => []
  | v :: vs => encodeValue v ++ encodeList vs
end

mutual
/-- Well-formed wire values, per the spec's data model: line texts are
UTF-8 with no embedded CR or LF, integers fit in `i64`, and bulk/array
lengths fit in `usize`. -/
def wellFormed : Value → Bool
  | Value.simpleString s => utf8Valid s && decide (13 ∉ s) && decide (10 ∉ s)
  | Value.error s => utf8Valid s && decide (13 ∉ s) && decide (10 ∉ s)
  | Value.integer n => decide (-(2 ^ 63 : Int) ≤ n) && decide (n < 2 ^ 63)
  | Value.bulkString b => decide (b.length < 2 ^ 64)
  | Value.array vs => decide (vs.length < 2 ^ 64) && wellFormedList vs
  | Value.null => true

/-- Well-formedness of every element of a list of values. -/
def wellFormedList : List Value → Bool
  | [] => true
  | v :: vs => wellFormed v && wellFormedList vs
end

/-!
The keyspace (`db.rs`) and the command executor (`commands.rs`).

`commands.rs` is the operative interface of the stored value: it
constructs entries with `DbValue::new(value)` holding the payload
`Bytes` directly and reads them back as `db_val.data` into a
`BulkString`, so `DbValue.data` is modelled as a byte string.  The
`HashMap`s of `Database` are modelled as association lists with
`HashMap` get/insert/remove semantics.  `Instant` is modelled as a
`Nat` monotonic timestamp (`now` is threaded as an argument); the
`tokio` lock is implicit in the sequential state-passing style, each
handler being one critical section.  A subscriber handle
(`tokio::sync::mpsc::Sender`) carries its queue state so that
`try_send` can be evaluated: the enqueue succeeds exactly when the
queue is neither closed nor full.
-/

/-- A stored entry: `DbValue` as used by commands.rs (payload bytes
plus optional absolute expiry instant). -/
structure DbValue where
  data : List Nat
  expiry : Option Nat
deriving DecidableEq, Repr

/-- `DbValue::is_expired`: expired iff an expiry is set and strictly
in the past (`Instant::now() > exp`). -/
def DbValue.is_expired (v : DbValue) (now : Nat) : Bool :=
  match v.expiry with
  | some exp => now > exp
  | none => false

/-- A subscriber queue handle (`mpsc::Sender<Bytes>` with its bounded
queue): capacity, currently buffered messages, and whether the
receiving side has been dropped. -/
structure Sender where
  capacity : Nat
  queued : List (List Nat)
  closed : Bool
deriving DecidableEq, Repr

/-- `Sender::try_send`: non-blocking enqueue, failing when the channel
is closed or the queue is full; on success the message is appended to
the queue. -/
def try_send (s : Sender) (m : List Nat) : Option Sender :=
  if s.closed then none
  else if s.capacity ≤ s.queued.length then none
  else some { s with queued := s.queued ++ [m] }

/-- First-match lookup in an association list (`HashMap::get`). -/
def mapGet {V : Type} (m : List (List Nat × V)) (k : List Nat) : Option V :=
  match m with
  | [] => none
  | (k2, v) :: rest => if k2 = k then some v else mapGet rest k

/-- `HashMap::insert`: binds `k` to `v`, replacing any previous
binding. -/
def mapInsert {V : Type} (m : List (List Nat × V)) (k : List Nat) (v : V) : List (List Nat × V) :=
  (k, v) :: m.filter (fun p => p.1 ≠ k)

/-- `HashMap::remove`: drops the binding of `k`, if any. -/
def mapRemove {V : Type} (m : List (List Nat × V)) (k : List Nat) : List (List Nat × V) :=
  m.filter (fun p => p.1 ≠ k)

/-- In-place update of the value bound to `k` (`HashMap::get_mut`
followed by mutation through the reference). -/
def mapUpdate {V : Type} (m : List (List Nat × V)) (k : List Nat) (f : V → V) :
    List (List Nat × V) :=
  m.map (fun p => if p.1 = k then (p.1, f p.2) else p)

/-- The shared state behind the lock: `Database` of db.rs, with the
keyspace and the channel registry. -/
structure Database where
  data : List (List Nat × DbValue)
  channels : List (List Nat × List Sender)
deriving DecidableEq, Repr

/-- `CommandResult` of commands.rs: a reply value, or the signal to
switch the connection into subscriber mode on a channel. -/
inductive CommandResult where
  | value (v : Value)
  | subscribeSignal (channel : List Nat)
deriving Repr

/-- `extract_string`: the UTF-8 key bytes of a `BulkString`, `None`
for any other variant or invalid UTF-8. -/
def extract_string (v : Value) : Option (List Nat) :=
  match v with
  | Value.bulkString bs => if utf8Valid bs then some bs else none
  | _ => none

/-- `extract_bytes`: the payload of a `BulkString`, `None` for any
other variant. -/
def extract_bytes (v : Value) : Option (List Nat) :=
  match v with
  | Value.bulkString bs => some bs
  | _ => none

/-- The `EX` TTL scan of `handle_set` (commands.rs lines 39-46).
Returns `none` when the whole command aborts (the `ok()?` applied to
`from_utf8` of a non-UTF-8 seconds argument), `some none` when no
expiry is set, and `some (some deadline)` when `EX` parses.  The scan
only runs when at least two extra arguments follow the value
(`args.len() >= 4`), the third argument is the `BulkString` `EX`, and
the fourth is a `BulkString` whose text parses as `u64`. -/
def computeExpiry (rest : List Value) (now : Nat) : Option (Option Nat) :=
  match rest with
  | v2 :: v3 :: _ =>
    match v2 with
    | Value.bulkString ex =>
      if ex = [69, 88] then
        match v3 with
        | Value.bulkString sb =>
          if utf8Valid sb then
            match parseUsize sb with
            | some secs => some (some (now + secs))
            | none => some none
          else none
        | _ => some none
      else some none
    | _ => some none
  | _ => some none

/-- `handle_set` of commands.rs: needs a key and a value, scans the
optional `EX seconds` pair, and inserts the entry, replying `OK`. -/
def handle_set (db : Database) (now : Nat) (args : List Value) : Option Value × Database :=
  match args with
  | a0 :: a1 :: rest =>
    match extract_string a0 with
    | some key =>
      match extract_bytes a1 with
      | some value =>
        match computeExpiry rest now with
        | some expiry =>
          (some (Value.simpleString [79, 75]),
           { db with data := mapInsert db.data key { data := value, expiry := expiry } })
        | none => (none, db)
      | none => (none, db)
    | none => (none, db)
  | _ => (none, db)

/-- `handle_get` of commands.rs: exactly one argument; an expired
entry is removed and `Null` returned, a live entry's payload is
returned as a `BulkString`, an absent key yields `Null`. -/
def handle_get (db : Database) (now : Nat) (args : List Value) : Option Value × Database :=
  match args with
  | [a0] =>
    match extract_string a0 with
    | some key =>
      match mapGet db.data key with
      | some dbv =>
        if dbv.is_expired now then
          (some Value.null, { db with data := mapRemove db.data key })
        else (some (Value.bulkString dbv.data), db)
      | none => (some Value.null, db)
    | none => (none, db)
  | _ => (none, db)

/-- `handle_del` of commands.rs: exactly one argument; removes the key
and replies with the number of entries removed (0 or 1). -/
def handle_del (db : Database) (args : List Value) : Option Value × Database :=
  match args with
  | [a0] =>
    match extract_string a0 with
    | some key =>
      (some (Value.integer (if (mapGet db.data key).isSome then 1 else 0)),
       { db with data := mapRemove db.data key })
    | none => (none, db)
  | _ => (none, db)

/-- `handle_subscribe` of commands.rs: exactly one argument; yields the
mode-change signal (the db is not touched here). -/
def handle_subscribe (args : List Value) : Option CommandResult :=
  match args with
  | [a0] => (extract_string a0).map CommandResult.subscribeSignal
  | _ => none

/-- `handle_publish` of commands.rs: exactly two arguments.  When the
channel has a subscriber list, every subscriber gets a non-blocking
`try_send` of the message and those whose send fails are dropped from
the list (`Vec::retain`); the reply is the list length from before the
pruning.  When the channel is absent the reply is 0 and nothing is
touched. -/
def handle_publish (db : Database) (args : List Value) : Option Value × Database :=
  match args with
  | [a0, a1] =>
    match extract_string a0 with
    | some channel =>
      match extract_bytes a1 with
      | some message =>
        match mapGet db.channels channel with
        | some senders =>
          (some (Value.integer senders.length),
           { db with
             channels :=
               mapUpdate db.channels channel
                 (fun ss => ss.filterMap (fun s => try_send s message)) })
        | none => (some (Value.integer 0), db)
      | none => (none, db)
    | none => (none, db)
  | _ => (none, db)

/-- ASCII case folding of `str::to_uppercase` (the Unicode cases that
cannot produce the ASCII command names are immaterial here). -/
def asciiUpper (b : Nat) : Nat :=
  if 97 ≤ b ∧ b ≤ 122 then b - 32 else b

/-- `to_uppercase` applied to the command-name bytes. -/
def upperBytes (s : List Nat) : List Nat :=
  s.map asciiUpper

/-- `handle_command` of commands.rs: an empty request or a non-
`BulkString` (or non-UTF-8) command name yields no result; otherwise
the uppercased name dispatches to the handler, unknown names yielding
no result. -/
def handle_command (db : Database) (now : Nat) (cmd : List Value) :
    Option CommandResult × Database :=
  match cmd with
  | [] => (none, db)
  | c0 :: args =>
    match c0 with
    | Value.bulkString bs =>
      if utf8Valid bs then
        if upperBytes bs = [80, 73, 78, 71] then
          (some (CommandResult.value (Value.simpleString [80, 79, 78, 71])), db)
        else if upperBytes bs = [83, 69, 84] then
          ((handle_set db now args).1.map CommandResult.value, (handle_set db now args).2)
        else if upperBytes bs = [71, 69, 84] then
          ((handle_get db now args).1.map CommandResult.value, (handle_get db now args).2)
        else if upperBytes bs = [68, 69, 76] then
          ((handle_del db args).1.map CommandResult.value, (handle_del db args).2)
        else if upperBytes bs = [83, 85, 66, 83, 67, 82, 73, 66, 69] then
          (handle_subscribe args, db)
        else if upperBytes bs = [80, 85, 66, 76, 73, 83, 72] then
          ((handle_publish db args).1.map CommandResult.value, (handle_publish db args).2)
        else (none, db)
      else (none, db)
    | _ => (none, db)

/-- Whether a wire value is a `BulkString`. -/
def isBulk (v : Value) : Bool :=
  match v with
  | Value.bulkString _ => true
  | _ => false

/-- The reply variants the executor may emit per the spec:
`SimpleString`, `Integer`, `BulkString` or `Null` — neither `Error`
nor `Array`. -/
def isReplyVariant (v : Value) : Bool :=
  match v with
  | Value.error _ => false
  | Value.array _ => false
  | _ => true

/-!  Lemmas about the decimal representation and its parse.  -/

theorem natToDecAux_zero (acc : List Nat) : natToDecAux 0 acc = acc := by
  rw [natToDecAux]
  simp

theorem natToDecAux_append (n : Nat) :
    ∀ acc, natToDecAux n acc = natToDecAux n [] ++ acc := by
  induction n using Nat.strong_induction_on with
  | _ n ih =>
    intro acc
    by_cases h : n = 0
    · subst h; rw [natToDecAux_zero, natToDecAux_zero]; simp
    · conv_lhs => rw [natToDecAux]
      conv_rhs => rw [natToDecAux]
      simp only [h, dite_false]
      have hlt : n / 10 < n := Nat.div_lt_self (Nat.pos_of_ne_zero h) (by omega)
      rw [ih (n / 10) hlt ((n % 10 + 48) :: acc), ih (n / 10) hlt [n % 10 + 48]]
      simp

theorem natToDecAux_nil_eq (n : Nat) (h : n ≠ 0) :
    natToDecAux n [] = natToDecAux (n / 10) [] ++ [n % 10 + 48] := by
  rw [natToDecAux]
  simp only [h, dite_false]
  exact natToDecAux_append (n / 10) [n % 10 + 48]

theorem natToDecAux_digits (n : Nat) :
    ∀ b ∈ natToDecAux n [], 48 ≤ b ∧ b ≤ 57 := by
  induction n using Nat.strong_induction_on with
  | _ n ih =>
    intro b hb
    by_cases h : n = 0
    · subst h; rw [natToDecAux] at hb; simp at hb
    · rw [natToDecAux_nil_eq n h] at hb
      rcases List.mem_append.mp hb with h1 | h2
      · exact ih (n / 10) (Nat.div_lt_self (Nat.pos_of_ne_zero h) (by omega)) b h1
      · have : b = n % 10 + 48 := by simpa using h2
        have : n % 10 < 10 := Nat.mod_lt _ (by omega)
        omega

theorem natToDec_digits (n : Nat) : ∀ b ∈ natToDec n, 48 ≤ b ∧ b ≤ 57 := by
  intro b hb
  rw [natToDec] at hb
  by_cases h : n = 0
  · simp [h] at hb; omega
  · simp only [h, if_false] at hb
    exact natToDecAux_digits n b hb

theorem natToDec_ne_nil (n : Nat) : natToDec n ≠ [] := by
  rw [natToDec]
  by_cases h : n = 0
  · simp [h]
  · simp only [h, if_false]
    rw [natToDecAux_nil_eq n h]
    simp

theorem parseDigitsGo_append (l1 l2 : List Nat) :
    ∀ a, parseDigitsGo (l1 ++ l2) a =
      match parseDigitsGo l1 a with
      | some a2 => parseDigitsGo l2 a2
      | none => none := by
  induction l1 with
  | nil => intro a; simp [parseDigitsGo]
  | cons b t ih =>
    intro a
    rw [List.cons_append, parseDigitsGo, parseDigitsGo]
    by_cases hb : (48 ≤ b && b ≤ 57) = true
    · rw [if_pos hb, if_pos hb, ih]
    · rw [if_neg hb, if_neg hb]

theorem parseDigitsGo_dec (n : Nat) (h : n ≠ 0) :
    ∀ a, parseDigitsGo (natToDecAux n []) a =
      some (a * 10 ^ (natToDecAux n []).length + n) := by
  induction n using Nat.strong_induction_on with
  | _ n ih =>
    intro a
    have hmod : n % 10 < 10 := Nat.mod_lt _ (by omega)
    by_cases h10 : n / 10 = 0
    · have hn : n < 10 := by omega
      have : natToDecAux n [] = [n % 10 + 48] := by
        rw [natToDecAux_nil_eq n h, h10, natToDecAux_zero]; simp
      rw [this]
      have : n % 10 = n := Nat.mod_eq_of_lt hn
      simp [parseDigitsGo]
      omega
    · rw [natToDecAux_nil_eq n h, parseDigitsGo_append]
      rw [ih (n / 10) (Nat.div_lt_self (Nat.pos_of_ne_zero h) (by omega)) h10 a]
      have hd : (48 ≤ n % 10 + 48 && n % 10 + 48 ≤ 57) = true := by
        simp; omega
      simp only [parseDigitsGo, hd, if_true]
      have hlen : (natToDecAux (n / 10) [] ++ [n % 10 + 48]).length
          = (natToDecAux (n / 10) []).length + 1 := by simp
      rw [hlen]
      congr 1
      have e1 : n % 10 + 48 - 48 = n % 10 := by omega
      have e2 : n / 10 * 10 + n % 10 = n := by omega
      calc (a * 10 ^ (natToDecAux (n / 10) []).length + n / 10) * 10 + (n % 10 + 48 - 48)
          = a * (10 ^ (natToDecAux (n / 10) []).length * 10) + (n / 10 * 10 + n % 10) := by
            rw [e1]; ring
        _ = a * 10 ^ ((natToDecAux (n / 10) []).length + 1) + n := by
            rw [e2, Nat.pow_succ]

theorem parseDigits_natToDec (n : Nat) : parseDigits (natToDec n) = some n := by
  by_cases h : n = 0
  · subst h; rfl
  · rw [natToDec]
    simp only [h, if_false]
    rw [parseDigits]
    have hne : natToDecAux n [] ≠ [] := by
      rw [natToDecAux_nil_eq n h]; simp
    rw [if_neg (by simpa [List.isEmpty_iff] using hne)]
    rw [parseDigitsGo_dec n h 0]
    simp only [Nat.zero_mul, Nat.zero_add]

theorem natToDec_head_digit (n : Nat) :
    ∃ d t, natToDec n = d :: t ∧ 48 ≤ d ∧ d ≤ 57 := by
  cases hd : natToDec n with
  | nil => exact absurd hd (natToDec_ne_nil n)
  | cons d t =>
    refine ⟨d, t, rfl, ?_⟩
    have := natToDec_digits n d (by rw [hd]; simp)
    exact this

theorem parseUsize_natToDec (n : Nat) (h : n < 2 ^ 64) :
    parseUsize (natToDec n) = some n := by
  obtain ⟨d, t, hdt, hd1, hd2⟩ := natToDec_head_digit n
  rw [parseUsize]
  have hhead : (natToDec n).head? ≠ some 43 := by
    rw [hdt]; simp; omega
  simp only [hhead, if_neg, if_false]
  rw [parseDigits_natToDec n]
  have hlit : n < 18446744073709551616 := by omega
  simp [hlit]

theorem parseI64_intToDec (n : Int) (h1 : -(2 ^ 63 : Int) ≤ n) (h2 : n < 2 ^ 63) :
    parseI64 (intToDec n) = some n := by
  rw [intToDec]
  by_cases hneg : n < 0
  · simp only [hneg, if_true]
    obtain ⟨d, t, hdt, hd1, hd2⟩ := natToDec_head_digit n.natAbs
    rw [parseI64]
    have hh1 : (45 :: natToDec n.natAbs).head? ≠ some 43 := by simp
    have hh2 : (45 :: natToDec n.natAbs).head? = some 45 := by simp
    simp only [hh1, if_neg, if_false, hh2, if_pos, if_true, List.tail_cons]
    rw [parseDigits_natToDec]
    have habs : (n.natAbs : Int) = -n := Int.ofNat_natAbs_of_nonpos (by omega)
    have hb : n.natAbs ≤ 2 ^ 63 := by
      have h64 : (n.natAbs : Int) ≤ 2 ^ 63 := by omega
      exact_mod_cast h64
    simp only [hb, if_pos, if_true]
    rw [habs]
    simp
  · simp only [hneg, if_false]
    obtain ⟨d, t, hdt, hd1, hd2⟩ := natToDec_head_digit n.toNat
    rw [parseI64]
    have hh1 : (natToDec n.toNat).head? ≠ some 43 := by rw [hdt]; simp; omega
    have hh2 : (natToDec n.toNat).head? ≠ some 45 := by rw [hdt]; simp; omega
    simp only [hh1, hh2, if_neg, if_false]
    rw [parseDigits_natToDec]
    have hb : n.toNat < 2 ^ 63 := by omega
    simp only [hb, if_pos, if_true]
    congr 1
    omega

/-!  Lemmas about `read_line`.  -/

theorem utf8Valid_ascii (s : List Nat) (h : ∀ b ∈ s, b < 128) :
    utf8Valid s = true := by
  induction s with
  | nil => rfl
  | cons b t ih =>
    have hb : b < 128 := h b (List.mem_cons_self b t)
    have hl : utf8Lead b = some (0, 128, 191) := by rw [utf8Lead, if_pos hb]
    rw [utf8Valid, hl]
    exact ih (fun c hc => h c (List.mem_cons_of_mem b hc))

theorem readLineGo_crlf (s : List Nat) :
    ∀ acc rest, 13 ∉ s →
      readLineGo (s ++ 13 :: 10 :: rest) acc =
        (if utf8Valid (acc.reverse ++ s) then (Except.ok (acc.reverse ++ s), rest)
         else (Except.error ParseError.InvalidFormat, rest)) := by
  induction s with
  | nil =>
    intro acc rest _
    rw [List.nil_append, readLineGo.eq_def]
    simp
  | cons b t ih =>
    intro acc rest h
    have hb : ¬(b = 13) := by
      intro hb; exact h (by rw [hb]; exact List.mem_cons_self 13 t)
    rw [List.cons_append, readLineGo.eq_def]
    simp only [hb, if_false]
    rw [ih (b :: acc) rest (fun hm => h (List.mem_cons_of_mem b hm))]
    simp [List.append_assoc]

theorem read_line_crlf (s rest : List Nat) (h13 : 13 ∉ s)
    (hu : utf8Valid s = true) :
    read_line (s ++ 13 :: 10 :: rest) = (Except.ok s, rest) := by
  rw [read_line, readLineGo_crlf s [] rest h13]
  simp [hu]

theorem read_line_dec (n : Nat) (rest : List Nat) :
    read_line (natToDec n ++ 13 :: 10 :: rest) = (Except.ok (natToDec n), rest) := by
  apply read_line_crlf
  · intro hm
    have := natToDec_digits n 13 hm
    omega
  · exact utf8Valid_ascii _ (fun b hb => by have := natToDec_digits n b hb; omega)

theorem natToDec_ne_neg_one (n : Nat) : natToDec n ≠ [45, 49] := by
  obtain ⟨d, t, hdt, hd1, _⟩ := natToDec_head_digit n
  rw [hdt]
  intro hc
  have : d = 45 := by injection hc
  omega

theorem intToDec_bytes (n : Int) :
    ∀ b ∈ intToDec n, b = 45 ∨ (48 ≤ b ∧ b ≤ 57) := by
  intro b hb
  rw [intToDec] at hb
  by_cases hneg : n < 0
  · simp only [hneg, if_true] at hb
    rcases List.mem_cons.mp hb with h45 | hdig
    · exact Or.inl h45
    · exact Or.inr (natToDec_digits _ b hdig)
  · simp only [hneg, if_false] at hb
    exact Or.inr (natToDec_digits _ b hb)

theorem read_line_intDec (n : Int) (rest : List Nat) :
    read_line (intToDec n ++ 13 :: 10 :: rest) = (Except.ok (intToDec n), rest) := by
  apply read_line_crlf
  · intro hm
    rcases intToDec_bytes n 13 hm with h | h <;> omega
  · exact utf8Valid_ascii _ (fun b hb => by
      rcases intToDec_bytes n b hb with h | h <;> omega)

/-!  The round-trip of the decoder against the (spec-modelled) encoder.  -/

theorem encodeValue_len_pos (v : Value) : 1 ≤ (encodeValue v).length := by
  cases v <;> simp [encodeValue]

theorem natToDec_len_pos (n : Nat) : 1 ≤ (natToDec n).length := by
  have := natToDec_ne_nil n
  cases h : natToDec n with
  | nil => exact absurd h this
  | cons d t => simp

/-- Decoding an encoded well-formed value, with enough fuel, returns
exactly that value and leaves exactly the trailing bytes; the paired
statement covers the element loop of `parse_array`. -/
theorem parse_encode_aux : ∀ fuel : Nat,
    (∀ v rest, wellFormed v = true → (encodeValue v).length ≤ fuel →
      parseValueF fuel (encodeValue v ++ rest) = (Except.ok v, rest)) ∧
    (∀ vs rest, wellFormedList vs = true → (encodeList vs).length + 1 ≤ fuel →
      parseValuesF fuel vs.length (encodeList vs ++ rest) = (Except.ok vs, rest)) := by
  intro fuel
  induction fuel with
  | zero =>
    constructor
    · intro v _ _ hlen
      have := encodeValue_len_pos v
      omega
    · intro vs _ _ hlen
      omega
  | succ fuel ih =>
    constructor
    · intro v rest hwf hlen
      cases v with
      | simpleString s =>
        rw [wellFormed] at hwf
        simp only [Bool.and_eq_true, decide_eq_true_eq] at hwf
        obtain ⟨⟨hu, h13⟩, _⟩ := hwf
        have e : encodeValue (Value.simpleString s) ++ rest
            = 43 :: (s ++ 13 :: 10 :: rest) := by simp [encodeValue]
        rw [e, parseValueF, parse_simple_string, read_line_crlf s rest h13 hu]
        rfl
      | error s =>
        rw [wellFormed] at hwf
        simp only [Bool.and_eq_true, decide_eq_true_eq] at hwf
        obtain ⟨⟨hu, h13⟩, _⟩ := hwf
        have e : encodeValue (Value.error s) ++ rest
            = 45 :: (s ++ 13 :: 10 :: rest) := by simp [encodeValue]
        rw [e, parseValueF, parse_error, read_line_crlf s rest h13 hu]
        rfl
      | integer n =>
        rw [wellFormed] at hwf
        simp only [Bool.and_eq_true, decide_eq_true_eq] at hwf
        obtain ⟨h1, h2⟩ := hwf
        have e : encodeValue (Value.integer n) ++ rest
            = 58 :: (intToDec n ++ 13 :: 10 :: rest) := by simp [encodeValue]
        rw [e, parseValueF, parse_integer, read_line_intDec n rest]
        simp [parseI64_intToDec n h1 h2]
      | bulkString b =>
        rw [wellFormed] at hwf
        simp only [decide_eq_true_eq] at hwf
        have e : encodeValue (Value.bulkString b) ++ rest
            = 36 :: (natToDec b.length ++ 13 :: 10 :: (b ++ 13 :: 10 :: rest)) := by
          simp [encodeValue]
        rw [e, parseValueF, parse_bulk_string,
            read_line_dec b.length (b ++ 13 :: 10 :: rest)]
        have hgeq : ¬((b ++ 13 :: 10 :: rest).length < b.length + 2) := by simp
        simp [natToDec_ne_neg_one b.length, parseUsize_natToDec b.length hwf, hgeq,
              List.take_left, List.drop_left]
      | array vs =>
        rw [wellFormed] at hwf
        simp only [Bool.and_eq_true, decide_eq_true_eq] at hwf
        obtain ⟨hk, hvs⟩ := hwf
        have e : encodeValue (Value.array vs) ++ rest
            = 42 :: (natToDec vs.length ++ 13 :: 10 :: (encodeList vs ++ rest)) := by
          simp [encodeValue]
        have hbound : (encodeList vs).length + 1 ≤ fuel := by
          have hd := natToDec_len_pos vs.length
          have he : (encodeValue (Value.array vs)).length
              = 1 + ((natToDec vs.length).length + (2 + (encodeList vs).length)) := by
            simp [encodeValue]
            omega
          omega
        rw [e, parseValueF, read_line_dec vs.length (encodeList vs ++ rest)]
        simp [natToDec_ne_neg_one vs.length, parseUsize_natToDec vs.length hk,
              (ih.2) vs rest hvs hbound]
      | null =>
        have e : encodeValue Value.null ++ rest
            = 36 :: ([45, 49] ++ 13 :: 10 :: rest) := by simp [encodeValue]
        rw [e, parseValueF, parse_bulk_string,
            read_line_crlf [45, 49] rest (by simp) (by rfl)]
        rfl
    · intro vs rest hwf hlen
      cases vs with
      | nil =>
        rw [encodeList, List.nil_append, List.length_nil, parseValuesF]
      | cons v vs2 =>
        rw [wellFormedList] at hwf
        simp only [Bool.and_eq_true] at hwf
        obtain ⟨hv, hvs⟩ := hwf
        have hlen2 : (encodeList (v :: vs2)).length
            = (encodeValue v).length + (encodeList vs2).length := by
          simp [encodeList]
        have hb1 : (encodeValue v).length ≤ fuel := by omega
        have hb2 : (encodeList vs2).length + 1 ≤ fuel := by
          have := encodeValue_len_pos v
          omega
        have e : encodeList (v :: vs2) ++ rest
            = encodeValue v ++ (encodeList vs2 ++ rest) := by simp [encodeList]
        rw [List.length_cons, e, parseValuesF]
        rw [(ih.1) v (encodeList vs2 ++ rest) hv hb1]
        simp [(ih.2) vs2 rest hvs hb2]

/-!  Lemmas about the association-list maps.  -/

theorem mapGet_mapRemove {V : Type} (m : List (List Nat × V)) (k : List Nat) :
    mapGet (mapRemove m k) k = none := by
  induction m with
  | nil => rfl
  | cons p rest ih =>
    simp only [mapRemove, List.filter_cons, ne_eq, decide_not] at ih ⊢
    by_cases hp : p.1 = k
    · simp [hp]
      exact ih
    · simp only [hp, decide_eq_true_eq]
      simp [hp, mapGet]
      exact ih

theorem mapGet_mapUpdate {V : Type} (m : List (List Nat × V)) (k : List Nat) (f : V → V) :
    mapGet (mapUpdate m k f) k = (mapGet m k).map f := by
  induction m with
  | nil => rfl
  | cons p rest ih =>
    obtain ⟨k2, v2⟩ := p
    simp only [mapUpdate, List.map_cons] at ih ⊢
    by_cases hp : k2 = k
    · rw [show ((if (k2, v2).1 = k then ((k2, v2).1, f (k2, v2).2) else (k2, v2)))
          = (k2, f v2) from by simp [hp]]
      rw [mapGet, mapGet]
      simp [hp]
    · rw [show ((if (k2, v2).1 = k then ((k2, v2).1, f (k2, v2).2) else (k2, v2)))
          = (k2, v2) from by simp [hp]]
      rw [mapGet, mapGet]
      simp only [hp, if_false, ite_false]
      exact ih

/-!  The claims.  -/

/-- Claim C1: the spec requires the decoder to be resumable — for a
well-formed encoding split at any byte boundary, decoding the prefix
returns `Incomplete` without (net) advancing the buffer, and decoding
after appending the suffix returns the original value.  The code fails
this: for the encoding `+OK\r\n` of `SimpleString "OK"` split after
one byte, `parse_value` consumes the `+` before reporting
`Incomplete` (the buffer is left empty, not restored), so decoding the
buffer after the suffix `OK\r\n` arrives starts at `O` and yields
`InvalidFormat`, not the original value. -/
theorem c1_resumability_code_bug :
    encodeValue (Value.simpleString [79, 75]) = [43, 79, 75, 13, 10] ∧
    parse_value [43] = (Except.error ParseError.Incomplete, []) ∧
    parse_value [79, 75, 13, 10] = (Except.error ParseError.InvalidFormat, [75, 13, 10]) :=
  ⟨rfl, rfl, rfl⟩

/-- Claim C2: codec round-trip — for every well-formed `Value` `v`,
decoding the bytes produced by encoding `v` yields `v` and consumes
exactly the length of the encoding (whatever trails the encoding is
left in the buffer untouched). -/
theorem c2_codec_round_trip (v : Value) (rest : List Nat)
    (hwf : wellFormed v = true) :
    parse_value (encodeValue v ++ rest) = (Except.ok v, rest) := by
  rw [parse_value]
  exact (parse_encode_aux ((encodeValue v ++ rest).length + 1)).1 v rest hwf
    (by rw [List.length_append]; omega)

/-- Concrete instantiation of the C2 round-trip: an array of a bulk
string, a negative integer and a null, with a trailing byte. -/
theorem c2_codec_round_trip_witness :
    wellFormed (Value.array [Value.bulkString [102, 111, 111],
      Value.integer (-42), Value.null]) = true ∧
    parse_value (encodeValue (Value.array [Value.bulkString [102, 111, 111],
        Value.integer (-42), Value.null]) ++ [43])
      = (Except.ok (Value.array [Value.bulkString [102, 111, 111],
          Value.integer (-42), Value.null]), [43]) :=
  ⟨rfl, c2_codec_round_trip _ [43] rfl⟩

/-- Claim C8 fails on the code: the decoder does not require the two
bytes after a bulk-string payload to be CR LF.  Here the frame
`$5\r\nhelloXY` — payload followed by `XY` — is accepted as
`BulkString "hello"` rather than rejected as malformed framing. -/
theorem c8_trailing_bytes_counterexample :
    parse_value [36, 53, 13, 10, 104, 101, 108, 108, 111, 88, 89]
      = (Except.ok (Value.bulkString [104, 101, 108, 108, 111]), []) := rfl

/-- Claim C8 (amended): after the `N` payload bytes announced by the
length line, the decoder unconditionally consumes two further bytes
without validating them — a bulk-string frame whose payload is
followed by ANY two bytes is accepted as a `BulkString` of the
payload. -/
theorem c8_bulk_frame_amended (payload : List Nat) (x y : Nat) (rest : List Nat)
    (hlen : payload.length < 2 ^ 64) :
    parse_value (36 :: (natToDec payload.length ++ 13 :: 10 :: (payload ++ x :: y :: rest)))
      = (Except.ok (Value.bulkString payload), rest) := by
  rw [parse_value, parseValueF, parse_bulk_string,
      read_line_dec payload.length (payload ++ x :: y :: rest)]
  have hgeq : ¬((payload ++ x :: y :: rest).length < payload.length + 2) := by simp
  simp [natToDec_ne_neg_one payload.length, parseUsize_natToDec payload.length hlen, hgeq,
        List.take_left, List.drop_left]

/-- Concrete instantiation of the amended C8: payload `hi` followed by
`AB` instead of CR LF. -/
theorem c8_bulk_frame_amended_witness :
    ([104, 105] : List Nat).length < 2 ^ 64 ∧
    parse_value (36 :: (natToDec ([104, 105] : List Nat).length
        ++ 13 :: 10 :: ([104, 105] ++ 65 :: 66 :: [])))
      = (Except.ok (Value.bulkString [104, 105]), []) :=
  ⟨by decide, c8_bulk_frame_amended [104, 105] 65 66 [] (by decide)⟩

/-- Claim C3: for every key, GET returns the current payload as a
`BulkString` when the key is present and not expired; removes the
entry and returns `Null` when the key is present but expired; and
returns `Null` when the key is absent. -/
theorem c3_get_semantics (db : Database) (now : Nat) (key : List Nat)
    (hk : utf8Valid key = true) :
    (∀ v, mapGet db.data key = some v → v.is_expired now = true →
      handle_get db now [Value.bulkString key]
        = (some Value.null, { db with data := mapRemove db.data key }) ∧
      mapGet (mapRemove db.data key) key = none) ∧
    (∀ v, mapGet db.data key = some v → v.is_expired now = false →
      handle_get db now [Value.bulkString key] = (some (Value.bulkString v.data), db)) ∧
    (mapGet db.data key = none →
      handle_get db now [Value.bulkString key] = (some Value.null, db)) := by
  refine ⟨?_, ?_, ?_⟩
  · intro v hv he
    constructor
    · simp [handle_get, extract_string, hk, hv, he]
    · exact mapGet_mapRemove db.data key
  · intro v hv he
    simp [handle_get, extract_string, hk, hv, he]
  · intro hnone
    simp [handle_get, extract_string, hk, hnone]

/-- Concrete instantiation of C3 (expired branch): a key whose entry
expired at instant 5 is read at instant 10 — the reply is `Null` and
the entry is gone. -/
theorem c3_get_semantics_witness :
    handle_get { data := [([107], { data := [118], expiry := some 5 })], channels := [] }
        10 [Value.bulkString [107]]
      = (some Value.null,
         { data := mapRemove [([107], { data := [118], expiry := some 5 })] [107],
           channels := [] }) ∧
    mapGet (mapRemove [([107], ({ data := [118], expiry := some 5 } : DbValue))] [107]) [107]
      = none :=
  (c3_get_semantics { data := [([107], { data := [118], expiry := some 5 })], channels := [] }
    10 [107] rfl).1 { data := [118], expiry := some 5 } rfl rfl

/-- Claim C7: DEL removes the key when present and replies with the
count removed — `Integer 1` when the key was present, `Integer 0`
otherwise; consequently, after a DEL that replied 1, an immediately
following DEL on the same key replies 0 and an immediately following
GET replies `Null`. -/
theorem c7_del_idempotence (db : Database) (now3 : Nat) (key : List Nat)
    (hk : utf8Valid key = true) :
    ((mapGet db.data key).isSome = true →
      handle_del db [Value.bulkString key]
        = (some (Value.integer 1), { db with data := mapRemove db.data key }) ∧
      (handle_del { db with data := mapRemove db.data key } [Value.bulkString key]).1
        = some (Value.integer 0) ∧
      (handle_get { db with data := mapRemove db.data key } now3 [Value.bulkString key]).1
        = some Value.null) ∧
    (mapGet db.data key = none →
      handle_del db [Value.bulkString key]
        = (some (Value.integer 0), { db with data := mapRemove db.data key })) := by
  constructor
  · intro hp
    refine ⟨?_, ?_, ?_⟩
    · simp [handle_del, extract_string, hk, hp]
    · simp [handle_del, extract_string, hk, mapGet_mapRemove]
    · simp [handle_get, extract_string, hk, mapGet_mapRemove]
  · intro hnone
    simp [handle_del, extract_string, hk, hnone]

/-- Concrete instantiation of C7: deleting a present key replies 1,
then DEL replies 0 and GET replies Null. -/
theorem c7_del_idempotence_witness :
    handle_del { data := [([107], { data := [118], expiry := none })], channels := [] }
        [Value.bulkString [107]]
      = (some (Value.integer 1),
         { data := mapRemove [([107], { data := [118], expiry := none })] [107],
           channels := [] }) ∧
    (handle_del
        { data := mapRemove [([107], ({ data := [118], expiry := none } : DbValue))] [107],
          channels := [] } [Value.bulkString [107]]).1
      = some (Value.integer 0) ∧
    (handle_get
        { data := mapRemove [([107], ({ data := [118], expiry := none } : DbValue))] [107],
          channels := [] } 0 [Value.bulkString [107]]).1
      = some Value.null :=
  (c7_del_idempotence { data := [([107], { data := [118], expiry := none })], channels := [] }
    0 [107] rfl).1 rfl

/-- Claim C4: for a channel with a subscriber list, PUBLISH try-sends
the message into every subscriber queue, keeps exactly those whose
enqueue succeeds (dropping the full or closed ones), and replies with
the subscriber count from before the pruning; a channel without a list
replies 0. -/
theorem c4_publish_fanout (db : Database) (ch msg : List Nat)
    (hch : utf8Valid ch = true) :
    (∀ senders, mapGet db.channels ch = some senders →
      handle_publish db [Value.bulkString ch, Value.bulkString msg]
        = (some (Value.integer senders.length),
           { db with channels := mapUpdate db.channels ch (fun ss => ss.filterMap (fun s => try_send s msg)) }) ∧
      mapGet (mapUpdate db.channels ch
          (fun ss => ss.filterMap (fun s => try_send s msg))) ch
        = some (senders.filterMap (fun s => try_send s msg))) ∧
    (mapGet db.channels ch = none →
      (handle_publish db [Value.bulkString ch, Value.bulkString msg]).1
        = some (Value.integer 0)) := by
  constructor
  · intro senders hs
    constructor
    · simp [handle_publish, extract_string, extract_bytes, hch, hs]
    · rw [mapGet_mapUpdate, hs]
      rfl
  · intro hnone
    simp [handle_publish, extract_string, extract_bytes, hch, hnone]

/-- Concrete instantiation of C4: three subscribers — one healthy, one
with a full queue, one closed — so PUBLISH replies 3 (the pre-prune
count) while only the healthy subscriber, with the message enqueued,
survives in the registry. -/
theorem c4_publish_fanout_witness :
    handle_publish
        { data := [],
          channels := [([99], [{ capacity := 100, queued := [], closed := false },
                               { capacity := 1, queued := [[7]], closed := false },
                               { capacity := 100, queued := [], closed := true }])] }
        [Value.bulkString [99], Value.bulkString [109]]
      = (some (Value.integer ([({ capacity := 100, queued := [], closed := false } : Sender),
              { capacity := 1, queued := [[7]], closed := false },
              { capacity := 100, queued := [], closed := true }] : List Sender).length),
         { data := [],
           channels := mapUpdate [([99], [({ capacity := 100, queued := [], closed := false } : Sender), { capacity := 1, queued := [[7]], closed := false }, { capacity := 100, queued := [], closed := true }])] [99] (fun ss => ss.filterMap (fun s => try_send s [109])) }) ∧
    mapGet (mapUpdate [([99], [({ capacity := 100, queued := [], closed := false } : Sender),
        { capacity := 1, queued := [[7]], closed := false },
        { capacity := 100, queued := [], closed := true }])] [99]
      (fun ss => ss.filterMap (fun s => try_send s [109]))) [99]
      = some ([({ capacity := 100, queued := [], closed := false } : Sender),
          { capacity := 1, queued := [[7]], closed := false },
          { capacity := 100, queued := [], closed := true }].filterMap
            (fun s => try_send s [109])) :=
  (c4_publish_fanout
    { data := [],
      channels := [([99], [{ capacity := 100, queued := [], closed := false },
                           { capacity := 1, queued := [[7]], closed := false },
                           { capacity := 100, queued := [], closed := true }])] }
    [99] [109] rfl).1 _ rfl

/-- Claim C10: PUBLISH on a channel with no registry entry replies
`Integer 0` and returns the database exactly unchanged — no entry is
created and neither the keyspace nor any other channel is touched. -/
theorem c10_publish_absent_channel (db : Database) (ch msg : List Nat)
    (hch : utf8Valid ch = true) (habs : mapGet db.channels ch = none) :
    handle_publish db [Value.bulkString ch, Value.bulkString msg]
      = (some (Value.integer 0), db) := by
  simp [handle_publish, extract_string, extract_bytes, hch, habs]

/-- Concrete instantiation of C10: publishing to an unknown channel of
a database holding a key and one other channel replies 0 and leaves
the database untouched. -/
theorem c10_publish_absent_channel_witness :
    handle_publish
        { data := [([107], { data := [118], expiry := none })],
          channels := [([100], [{ capacity := 100, queued := [], closed := false }])] }
        [Value.bulkString [99], Value.bulkString [109]]
      = (some (Value.integer 0),
         { data := [([107], { data := [118], expiry := none })],
           channels := [([100], [{ capacity := 100, queued := [], closed := false }])] }) :=
  c10_publish_absent_channel
    { data := [([107], { data := [118], expiry := none })],
      channels := [([100], [{ capacity := 100, queued := [], closed := false }])] }
    [99] [109] rfl rfl

theorem extract_string_nonbulk (x : Value) (hx : isBulk x = false) :
    extract_string x = none := by
  cases x with
  | bulkString b => simp [isBulk] at hx
  | simpleString s => rfl
  | error s => rfl
  | integer n => rfl
  | array vs => rfl
  | null => rfl

theorem extract_bytes_nonbulk (x : Value) (hx : isBulk x = false) :
    extract_bytes x = none := by
  cases x with
  | bulkString b => simp [isBulk] at hx
  | simpleString s => rfl
  | error s => rfl
  | integer n => rfl
  | array vs => rfl
  | null => rfl

/-- Claim C5 fails on the code: a `SET k v EX s` whose seconds
argument is not valid UTF-8 does not reply `OK` with the TTL ignored —
the `ok()?` applied to `from_utf8` aborts the whole handler, so no
reply is produced and nothing is stored. -/
theorem c5_nonutf8_ttl_counterexample :
    handle_set { data := [], channels := [] } 0
        [Value.bulkString [107], Value.bulkString [118],
         Value.bulkString [69, 88], Value.bulkString [255]]
      = (none, { data := [], channels := [] }) := rfl

/-- Claim C5 (amended): a SET whose `EX` seconds argument is valid
UTF-8 but fails to parse as a non-negative decimal (`u64`) silently
drops the TTL, stores the key immortal and replies `OK`; but when the
seconds argument is not valid UTF-8 the command instead aborts with no
reply and no write. -/
theorem c5_ttl_parse_failure_amended (db : Database) (now : Nat) (kb vb sb : List Nat)
    (tail : List Value) (hk : utf8Valid kb = true) :
    (utf8Valid sb = true → parseUsize sb = none →
      handle_set db now (Value.bulkString kb :: Value.bulkString vb ::
          Value.bulkString [69, 88] :: Value.bulkString sb :: tail)
        = (some (Value.simpleString [79, 75]),
           { db with data := mapInsert db.data kb { data := vb, expiry := none } })) ∧
    (utf8Valid sb = false →
      handle_set db now (Value.bulkString kb :: Value.bulkString vb ::
          Value.bulkString [69, 88] :: Value.bulkString sb :: tail)
        = (none, db)) := by
  constructor
  · intro hu hp
    simp [handle_set, extract_string, extract_bytes, computeExpiry, hk, hu, hp]
  · intro hu
    simp [handle_set, extract_string, extract_bytes, computeExpiry, hk, hu]

/-- Concrete instantiation of the amended C5: `SET k v EX x` — the
seconds text `x` is UTF-8 but not a number, so the key is stored
immortal and the reply is `OK`. -/
theorem c5_ttl_parse_failure_amended_witness :
    utf8Valid [120] = true ∧ parseUsize [120] = none ∧
    handle_set { data := [], channels := [] } 0
        [Value.bulkString [107], Value.bulkString [118],
         Value.bulkString [69, 88], Value.bulkString [120]]
      = (some (Value.simpleString [79, 75]),
         { data := mapInsert [] [107] { data := [118], expiry := none },
           channels := [] }) :=
  ⟨rfl, rfl,
   (c5_ttl_parse_failure_amended { data := [], channels := [] } 0
     [107] [118] [120] [] rfl).1 rfl rfl⟩

/-- Claim C6 fails on the code: a request array containing a
non-`BulkString` element can still produce a reply — `SET k v EX 5`
with the seconds slot holding an `Integer` is answered `OK` (the
`if let` over the optional TTL arguments simply falls through). -/
theorem c6_set_ex_nonbulk_counterexample :
    handle_command { data := [], channels := [] } 0
        [Value.bulkString [83, 69, 84], Value.bulkString [107], Value.bulkString [118],
         Value.bulkString [69, 88], Value.integer 5]
      = (some (CommandResult.value (Value.simpleString [79, 75])),
         { data := [([107], { data := [118], expiry := none })], channels := [] }) := rfl

/-- Claim C6 (amended): a non-`BulkString` in the command-name
position, or in a required argument position — the single argument of
GET, DEL and SUBSCRIBE, either argument of PUBLISH, or the key or
value of SET — yields no reply; the optional `EX`/seconds slots of SET
are exempt (a non-`BulkString` there is ignored and SET still
replies). -/
theorem c6_nonbulk_no_reply_amended (db : Database) (now : Nat) (x : Value)
    (hx : isBulk x = false) :
    (∀ args, handle_command db now (x :: args) = (none, db)) ∧
    (handle_command db now [Value.bulkString [71, 69, 84], x]).1 = none ∧
    (handle_command db now [Value.bulkString [68, 69, 76], x]).1 = none ∧
    (handle_command db now [Value.bulkString [83, 85, 66, 83, 67, 82, 73, 66, 69], x]).1 = none ∧
    (∀ y, (handle_command db now [Value.bulkString [80, 85, 66, 76, 73, 83, 72], x, y]).1 = none) ∧
    (∀ y, (handle_command db now [Value.bulkString [80, 85, 66, 76, 73, 83, 72], y, x]).1 = none) ∧
    (∀ y rest, (handle_command db now (Value.bulkString [83, 69, 84] :: x :: y :: rest)).1 = none) ∧
    (∀ y rest, (handle_command db now (Value.bulkString [83, 69, 84] :: y :: x :: rest)).1 = none) := by
  refine ⟨?_, ?_, ?_, ?_, ?_, ?_, ?_, ?_⟩
  · intro args
    cases x with
    | bulkString b => simp [isBulk] at hx
    | simpleString s => rfl
    | error s => rfl
    | integer n => rfl
    | array vs => rfl
    | null => rfl
  · have hred : handle_command db now [Value.bulkString [71, 69, 84], x]
        = ((handle_get db now [x]).1.map CommandResult.value, (handle_get db now [x]).2) := rfl
    rw [hred]
    simp [handle_get, extract_string_nonbulk x hx]
  · have hred : handle_command db now [Value.bulkString [68, 69, 76], x]
        = ((handle_del db [x]).1.map CommandResult.value, (handle_del db [x]).2) := rfl
    rw [hred]
    simp [handle_del, extract_string_nonbulk x hx]
  · have hred : handle_command db now [Value.bulkString [83, 85, 66, 83, 67, 82, 73, 66, 69], x]
        = (handle_subscribe [x], db) := rfl
    rw [hred]
    simp [handle_subscribe, extract_string_nonbulk x hx]
  · intro y
    have hred : handle_command db now [Value.bulkString [80, 85, 66, 76, 73, 83, 72], x, y]
        = ((handle_publish db [x, y]).1.map CommandResult.value, (handle_publish db [x, y]).2) := rfl
    rw [hred]
    simp [handle_publish, extract_string_nonbulk x hx]
  · intro y
    have hred : handle_command db now [Value.bulkString [80, 85, 66, 76, 73, 83, 72], y, x]
        = ((handle_publish db [y, x]).1.map CommandResult.value, (handle_publish db [y, x]).2) := rfl
    rw [hred]
    cases hsy : extract_string y with
    | none => simp [handle_publish, hsy]
    | some c => simp [handle_publish, hsy, extract_bytes_nonbulk x hx]
  · intro y rest
    have hred : handle_command db now (Value.bulkString [83, 69, 84] :: x :: y :: rest)
        = ((handle_set db now (x :: y :: rest)).1.map CommandResult.value,
           (handle_set db now (x :: y :: rest)).2) := rfl
    rw [hred]
    simp [handle_set, extract_string_nonbulk x hx]
  · intro y rest
    have hred : handle_command db now (Value.bulkString [83, 69, 84] :: y :: x :: rest)
        = ((handle_set db now (y :: x :: rest)).1.map CommandResult.value,
           (handle_set db now (y :: x :: rest)).2) := rfl
    rw [hred]
    cases hsy : extract_string y with
    | none => simp [handle_set, hsy]
    | some c => simp [handle_set, hsy, extract_bytes_nonbulk x hx]

/-- Concrete instantiation of the amended C6: a GET whose argument is
`Integer 7` produces no reply. -/
theorem c6_nonbulk_no_reply_amended_witness :
    (handle_command { data := [], channels := [] } 0
        [Value.bulkString [71, 69, 84], Value.integer 7]).1 = none :=
  (c6_nonbulk_no_reply_amended { data := [], channels := [] } 0
    (Value.integer 7) rfl).2.1

theorem handle_set_reply (db : Database) (now : Nat) (args : List Value) (v : Value)
    (h : (handle_set db now args).1 = some v) : isReplyVariant v = true := by
  rcases args with _ | ⟨a0, _ | ⟨a1, rest⟩⟩
  · rw [show handle_set db now [] = (none, db) from rfl] at h
    simp at h
  · rw [show handle_set db now [a0] = (none, db) from rfl] at h
    simp at h
  · rw [handle_set] at h
    repeat' split at h
    all_goals simp at h
    all_goals try subst h
    all_goals simp [isReplyVariant]

theorem handle_get_reply (db : Database) (now : Nat) (args : List Value) (v : Value)
    (h : (handle_get db now args).1 = some v) : isReplyVariant v = true := by
  rcases args with _ | ⟨a0, _ | ⟨a1, rest⟩⟩
  · rw [show handle_get db now [] = (none, db) from rfl] at h
    simp at h
  · rw [handle_get] at h
    repeat' split at h
    all_goals simp at h
    all_goals try subst h
    all_goals simp [isReplyVariant]
  · rw [show handle_get db now (a0 :: a1 :: rest) = (none, db) from rfl] at h
    simp at h

theorem handle_del_reply (db : Database) (args : List Value) (v : Value)
    (h : (handle_del db args).1 = some v) : isReplyVariant v = true := by
  rcases args with _ | ⟨a0, _ | ⟨a1, rest⟩⟩
  · rw [show handle_del db [] = (none, db) from rfl] at h
    simp at h
  · rw [handle_del] at h
    repeat' split at h
    all_goals simp at h
    all_goals try subst h
    all_goals simp [isReplyVariant]
  · rw [show handle_del db (a0 :: a1 :: rest) = (none, db) from rfl] at h
    simp at h

theorem handle_publish_reply (db : Database) (args : List Value) (v : Value)
    (h : (handle_publish db args).1 = some v) : isReplyVariant v = true := by
  rcases args with _ | ⟨a0, _ | ⟨a1, _ | ⟨a2, rest⟩⟩⟩
  · rw [show handle_publish db [] = (none, db) from rfl] at h
    simp at h
  · rw [show handle_publish db [a0] = (none, db) from rfl] at h
    simp at h
  · rw [handle_publish] at h
    repeat' split at h
    all_goals simp at h
    all_goals try subst h
    all_goals simp [isReplyVariant]
  · rw [show handle_publish db (a0 :: a1 :: a2 :: rest) = (none, db) from rfl] at h
    simp at h

theorem handle_subscribe_signal (args : List Value) (r : CommandResult)
    (h : handle_subscribe args = some r) :
    ∃ ch, r = CommandResult.subscribeSignal ch := by
  rcases args with _ | ⟨a0, _ | ⟨a1, rest⟩⟩
  · rw [show handle_subscribe [] = none from rfl] at h
    simp at h
  · rw [handle_subscribe] at h
    cases hk : extract_string a0 with
    | none => rw [hk] at h; simp at h
    | some ch =>
      rw [hk] at h
      simp at h
      exact ⟨ch, h.symm⟩
  · rw [show handle_subscribe (a0 :: a1 :: rest) = none from rfl] at h
    simp at h

/-- Claim C9: whenever the executor produces a reply value, that value
is never the `Error` variant (nor an `Array`): every reply is a
`SimpleString`, `Integer`, `BulkString` or `Null`; all failure modes
yield no reply instead of an error frame. -/
theorem c9_no_error_replies (db : Database) (now : Nat) (cmd : List Value)
    (v : Value) (db2 : Database)
    (h : handle_command db now cmd = (some (CommandResult.value v), db2)) :
    isReplyVariant v = true := by
  rcases cmd with _ | ⟨c0, args⟩
  · rw [handle_command] at h
    simp at h
  · cases c0 with
    | bulkString bs =>
      rw [handle_command] at h
      by_cases hu : utf8Valid bs = true
      case neg => simp [hu] at h
      rw [if_pos hu] at h
      by_cases p1 : upperBytes bs = [80, 73, 78, 71]
      · rw [if_pos p1] at h
        simp only [Prod.mk.injEq, Option.some.injEq] at h
        obtain ⟨hv, _⟩ := h
        injection hv with hv2
        rw [← hv2]
        rfl
      rw [if_neg p1] at h
      by_cases p2 : upperBytes bs = [83, 69, 84]
      · rw [if_pos p2] at h
        simp only [Prod.mk.injEq] at h
        obtain ⟨h1, _⟩ := h
        cases ho : (handle_set db now args).1 with
        | none => rw [ho] at h1; simp at h1
        | some w =>
          rw [ho] at h1
          simp at h1
          rw [← h1]
          exact handle_set_reply db now args w ho
      rw [if_neg p2] at h
      by_cases p3 : upperBytes bs = [71, 69, 84]
      · rw [if_pos p3] at h
        simp only [Prod.mk.injEq] at h
        obtain ⟨h1, _⟩ := h
        cases ho : (handle_get db now args).1 with
        | none => rw [ho] at h1; simp at h1
        | some w =>
          rw [ho] at h1
          simp at h1
          rw [← h1]
          exact handle_get_reply db now args w ho
      rw [if_neg p3] at h
      by_cases p4 : upperBytes bs = [68, 69, 76]
      · rw [if_pos p4] at h
        simp only [Prod.mk.injEq] at h
        obtain ⟨h1, _⟩ := h
        cases ho : (handle_del db args).1 with
        | none => rw [ho] at h1; simp at h1
        | some w =>
          rw [ho] at h1
          simp at h1
          rw [← h1]
          exact handle_del_reply db args w ho
      rw [if_neg p4] at h
      by_cases p5 : upperBytes bs = [83, 85, 66, 83, 67, 82, 73, 66, 69]
      · rw [if_pos p5] at h
        simp only [Prod.mk.injEq] at h
        obtain ⟨h1, _⟩ := h
        obtain ⟨ch, hc⟩ := handle_subscribe_signal args _ h1
        simp at hc
      rw [if_neg p5] at h
      by_cases p6 : upperBytes bs = [80, 85, 66, 76, 73, 83, 72]
      · rw [if_pos p6] at h
        simp only [Prod.mk.injEq] at h
        obtain ⟨h1, _⟩ := h
        cases ho : (handle_publish db args).1 with
        | none => rw [ho] at h1; simp at h1
        | some w =>
          rw [ho] at h1
          simp at h1
          rw [← h1]
          exact handle_publish_reply db args w ho
      rw [if_neg p6] at h
      simp at h
    | simpleString s =>
      rw [show handle_command db now (Value.simpleString s :: args) = (none, db) from rfl] at h
      simp at h
    | error s =>
      rw [show handle_command db now (Value.error s :: args) = (none, db) from rfl] at h
      simp at h
    | integer n =>
      rw [show handle_command db now (Value.integer n :: args) = (none, db) from rfl] at h
      simp at h
    | array vs =>
      rw [show handle_command db now (Value.array vs :: args) = (none, db) from rfl] at h
      simp at h
    | null =>
      rw [show handle_command db now (Value.null :: args) = (none, db) from rfl] at h
      simp at h

/-- Concrete instantiation of C9: the PING reply `PONG` is a
`SimpleString`, hence an allowed reply variant. -/
theorem c9_no_error_replies_witness :
    isReplyVariant (Value.simpleString [80, 79, 78, 71]) = true :=
  c9_no_error_replies { data := [], channels := [] } 0
    [Value.bulkString [80, 73, 78, 71]]
    (Value.simpleString [80, 79, 78, 71]) { data := [], channels := [] } rfl

end Redust
